import Mathlib

/-!
Shallow embedding of the transcript-extraction pipeline of the
obsidian-yt-video-summarizer plugin (src/src/services/youtube.ts, the
rewritten `YouTubeService` class at lines 201-375, together with
`VIDEO_ID_REGEX` from src/src/constants.ts).

Strings are modelled as Lean `String`/`List Char`; JavaScript numbers are
modelled as exact rationals (`ℚ`), with `Option ℚ` so that `none` stands
for `NaN`; network calls are modelled by an environment record supplying
the response of each request, and the pipeline additionally returns the
list of requested URLs, in order, so that "no request was issued" is the
statement that this list is empty.
-/

/-- The apostrophe character `'` (written via its code point). -/
def aposChar : Char := Char.ofNat 39

/-- The one-character string `'`. -/
def aposStr : String := String.mk [aposChar]

/-- One pass of JavaScript `String.prototype.replace` with a global literal
pattern `p :: ps`, on a character list, with explicit fuel (the fuel is
always instantiated with the length of the subject string, which suffices:
each step consumes at least one character).  On a match the replacement is
emitted and scanning resumes after the matched occurrence, exactly as the
JS engine does (the replacement text is never rescanned). -/
def replaceAllAux (p : Char) (ps rep : List Char) : Nat → List Char → List Char
  | _, [] => []
  | 0, s => s
  | n + 1, c :: cs =>
    if (p :: ps).isPrefixOf (c :: cs) then
      rep ++ replaceAllAux p ps rep n (cs.drop ps.length)
    else
      c :: replaceAllAux p ps rep n cs

/-- JavaScript `text.replace(/pat/g, rep)` for a literal pattern `pat`
(the six entity patterns used by `decodeHTML` contain no regex
metacharacters and the replacements contain no `$`, so global literal
substring replacement is the exact semantics). -/
def replaceAll (pat rep s : List Char) : List Char :=
  match pat with
  | [] => s
  | p :: ps => replaceAllAux p ps rep s.length s

/-- Whether `pat` occurs as a contiguous substring of `s`. -/
def occursIn (pat : List Char) : List Char → Bool
  | [] => pat.isPrefixOf []
  | c :: cs => pat.isPrefixOf (c :: cs) || occursIn pat cs

/-- `decodeHTML` (src/src/services/youtube.ts lines 366-374): the six
entity replacements, applied in the source's order
`&#39; &amp; &quot; &apos; &lt; &gt;`. -/
def decodeHTML (text : String) : String :=
  String.mk
    (replaceAll "&gt;".data ">".data
      (replaceAll "&lt;".data "<".data
        (replaceAll "&apos;".data aposStr.data
          (replaceAll "&quot;".data "\"".data
            (replaceAll "&amp;".data "&".data
              (replaceAll "&#39;".data aposStr.data text.data))))))

/-- A string free of all six recognized entities. -/
def entityFree (s : String) : Prop :=
  occursIn "&#39;".data s.data = false ∧
  occursIn "&amp;".data s.data = false ∧
  occursIn "&quot;".data s.data = false ∧
  occursIn "&apos;".data s.data = false ∧
  occursIn "&lt;".data s.data = false ∧
  occursIn "&gt;".data s.data = false

instance (s : String) : Decidable (entityFree s) := by
  unfold entityFree; infer_instance

theorem replaceAllAux_of_not_occurs (p : Char) (ps rep : List Char) :
    ∀ (n : Nat) (s : List Char), s.length ≤ n →
      occursIn (p :: ps) s = false → replaceAllAux p ps rep n s = s := by
  intro n
  induction n with
  | zero =>
    intro s hlen _
    cases s with
    | nil => rfl
    | cons c cs => simp at hlen
  | succ n ih =>
    intro s hlen hocc
    cases s with
    | nil => rfl
    | cons c cs =>
      simp only [occursIn, Bool.or_eq_false_iff] at hocc
      simp only [replaceAllAux, hocc.1, if_neg]
      simp only [Bool.false_eq_true, if_false, List.cons.injEq, true_and]
      exact ih cs (by simpa using Nat.lt_succ_iff.mp (Nat.lt_of_lt_of_le (Nat.lt_succ_self _) (by simpa using hlen))) hocc.2

theorem replaceAll_of_not_occurs (pat rep s : List Char)
    (hocc : occursIn pat s = false) : replaceAll pat rep s = s := by
  cases pat with
  | nil => rfl
  | cons p ps => exact replaceAllAux_of_not_occurs p ps rep s.length s (Nat.le_refl _) hocc

theorem decodeHTML_of_entityFree (s : String) (h : entityFree s) :
    decodeHTML s = s := by
  obtain ⟨h1, h2, h3, h4, h5, h6⟩ := h
  unfold decodeHTML
  rw [replaceAll_of_not_occurs _ _ _ h1, replaceAll_of_not_occurs _ _ _ h2,
    replaceAll_of_not_occurs _ _ _ h3, replaceAll_of_not_occurs _ _ _ h4,
    replaceAll_of_not_occurs _ _ _ h5, replaceAll_of_not_occurs _ _ _ h6]

/-- A character of the class `[a-zA-Z0-9_-]` in `VIDEO_ID_REGEX`. -/
def isIdChar (c : Char) : Bool :=
  c.isAlpha || c.isDigit || c = Char.ofNat 95 || c = Char.ofNat 45

/-- At a given position, the `([a-zA-Z0-9_-]{11})` part of `VIDEO_ID_REGEX`:
succeeds when the next 11 characters exist and all belong to the class,
returning the captured group. -/
def grab11 (cs : List Char) : Option (List Char) :=
  let pre := cs.take 11
  if pre.length = 11 && pre.all isIdChar then some pre else none

/-- Leftmost match of `VIDEO_ID_REGEX = /(?:v=|\/)([a-zA-Z0-9_-]{11})/`
(src/src/constants.ts line 32), returning the capture group: at each
position the alternative `v=` is tried before `/`, and the scan moves one
character at a time, exactly as the JS regex engine's leftmost-match
search does. -/
def scanVideoId : List Char → Option (List Char)
  | [] => none
  | c :: cs =>
    let hereV : Option (List Char) :=
      match c, cs with
      | 'v', '=' :: rest => grab11 rest
      | _, _ => none
    let here : Option (List Char) :=
      match hereV with
      | some r => some r
      | none => if c = '/' then grab11 cs else none
    match here with
    | some r => some r
    | none => scanVideoId cs

/-- `this.extractMatch(url, VIDEO_ID_REGEX)` as used by `fetchTranscript`
(src/src/services/youtube.ts lines 263, 361-364): the first capture group
of the first regex match, or `none` when the regex does not match. -/
def extractVideoId (url : String) : Option String :=
  (scanVideoId url.data).map String.mk

/-- `isYouTubeUrl` (src/src/services/youtube.ts lines 246-251): the two
JS `startsWith` prefix checks, written on the character lists. -/
def isYouTubeUrl (url : String) : Bool :=
  "https://www.youtube.com/".data.isPrefixOf url.data ||
    "https://youtu.be/".data.isPrefixOf url.data

/-- One caption-track descriptor from the metadata response.  `kind` is
`none` when the JSON object carries no `kind` field (a manually authored
track); JS `t.kind !== 'asr'` is then true, which the model renders as
`¬ (kind = some "asr")`. -/
structure CaptionTrack where
  languageCode : String
  kind : Option String
  baseUrl : String
deriving DecidableEq, Repr

/-- The `playerCaptionsTracklistRenderer` object; `captionTracks = none`
models an absent `captionTracks` field (JS falsy), while `some []` models
a present but empty array (JS truthy). -/
structure CaptionsRenderer where
  captionTracks : Option (List CaptionTrack)
deriving DecidableEq, Repr

/-- The `videoDetails` object of the metadata response; `none` models an
absent field. -/
structure VideoDetails where
  title : Option String
  author : Option String
  channelId : Option String
deriving DecidableEq, Repr

/-- The parsed InnerTube metadata response, restricted to the fields the
pipeline reads: `playabilityStatus` models
`innertubeData?.playabilityStatus?.status` (`none` when any link of the
optional chain is absent) and `captions` models
`innertubeData?.captions?.playerCaptionsTracklistRenderer`. -/
structure InnertubeData where
  playabilityStatus : Option String
  captions : Option CaptionsRenderer
  videoDetails : VideoDetails
deriving DecidableEq, Repr

/-- The error kinds thrown by the pipeline, one per `throw` site of
src/src/services/youtube.ts lines 259-350. -/
inductive PipelineError where
  | invalidUrl
  | credentialExtractionFailed
  | ageRestricted
  | videoUnavailable
  | transcriptsDisabled
  | noMatchingTrack
deriving DecidableEq, Repr

/-- `_extractCaptionsJson` (src/src/services/youtube.ts lines 316-330):
the playability status is inspected first (`LOGIN_REQUIRED` then `ERROR`),
and only afterwards the captions container; a missing container or a
missing `captionTracks` field fails with the transcripts-disabled error. -/
def extractCaptionsJson (d : InnertubeData) : Except PipelineError CaptionsRenderer :=
  if d.playabilityStatus = some "LOGIN_REQUIRED" then .error .ageRestricted
  else if d.playabilityStatus = some "ERROR" then .error .videoUnavailable
  else
    match d.captions with
    | none => .error .transcriptsDisabled
    | some c =>
      match c.captionTracks with
      | none => .error .transcriptsDisabled
      | some _ => .ok c

/-- `_findCaptionTrack` (src/src/services/youtube.ts lines 332-350),
translated clause by clause: the four reassignment steps of the source
become four fallback matches. -/
def findCaptionTrack (captionsJson : CaptionsRenderer) (langCode : String) :
    Except PipelineError CaptionTrack :=
  let captionTracks := captionsJson.captionTracks.getD []
  let track := captionTracks.find? fun t =>
    t.languageCode == langCode && !(t.kind == some "asr")
  let track2 := match track with
    | some t => some t
    | none => captionTracks.find? fun t => t.languageCode == langCode
  let track3 := match track2 with
    | some t => some t
    | none => captionTracks.find? fun t => t.languageCode.startsWith langCode
  let track4 := match track3 with
    | some t => some t
    | none => if captionTracks.length > 0 then captionTracks.head? else none
  match track4 with
  | none => .error .noMatchingTrack
  | some t => .ok t

/-- The spec's four preference rules (§4.2 of the design document), as an
ordered list of predicates over candidate tracks, written from the spec's
words: (1) exact language-code match with non-auto-generated kind,
(2) exact language-code match regardless of kind, (3) the requested code
is a prefix of the track's language code, (4) any track. -/
def preferenceRules (langCode : String) : List (CaptionTrack → Bool) :=
  [ fun t => t.languageCode == langCode && !(t.kind == some "asr"),
    fun t => t.languageCode == langCode,
    fun t => t.languageCode.startsWith langCode,
    fun _ => true ]

/-- First-match-wins selection over an ordered rule list: the first rule
that matches some track selects the first such track. -/
def selectByRules : List (CaptionTrack → Bool) → List CaptionTrack → Option CaptionTrack
  | [], _ => none
  | r :: rs, tracks =>
    match tracks.find? r with
    | some t => some t
    | none => selectByRules rs tracks

/-- One caption cue node of the fetched caption document, as produced by
the XML parse: the `start` and `dur` attributes (raw strings) and the raw
text content (entities still encoded). -/
structure Cue where
  start : String
  dur : String
  content : String
deriving DecidableEq, Repr

/-- One structured transcript line.  `duration` and `offset` model the JS
numbers `parseFloat(attr) * 1000` as exact rationals; `none` models `NaN`
(the value `parseFloat` returns when the attribute is not numeric). -/
structure TranscriptLine where
  text : String
  duration : Option ℚ
  offset : Option ℚ
deriving DecidableEq, Repr

/-- Value of a digit character. -/
def digitVal (c : Char) : Nat := c.toNat - 48

/-- Natural number denoted by a digit list (most significant first). -/
def digitsToNat (ds : List Char) : Nat :=
  ds.foldl (fun acc c => 10 * acc + digitVal c) 0

/-- JavaScript `parseFloat` restricted to the shapes that occur in caption
documents, modelled exactly on plain decimal numerals: an optional sign,
then digits with an optional fractional part; trailing non-numeric
characters are ignored; `none` models `NaN` (no leading digits at all).
The value is the exact rational the numeral denotes (caption attributes
carry at most millisecond precision in practice, and every concrete input
used below is exactly representable as an IEEE double, where the JS value
and this rational coincide). -/
def parseFloat (s : String) : Option ℚ :=
  let cs := s.data
  let neg := cs.head? = some (Char.ofNat 45)
  let cs := if neg then cs.drop 1 else cs
  let intPart := cs.takeWhile Char.isDigit
  let rest := cs.dropWhile Char.isDigit
  let fracPart :=
    match rest with
    | c :: rs => if c = Char.ofNat 46 then rs.takeWhile Char.isDigit else []
    | [] => []
  if intPart.isEmpty && fracPart.isEmpty then none
  else
    let denom : Nat := 10 ^ fracPart.length
    let mag : ℚ := mkRat (digitsToNat intPart * denom + digitsToNat fracPart) denom
    some (if neg then -mag else mag)

/-- `_parseTranscript` (src/src/services/youtube.ts lines 352-359): map
each cue node, in document order, to a transcript line; text is
entity-decoded, `start` and `dur` are `parseFloat`ed and multiplied by
1000.  No rounding and no re-sorting is performed. -/
def parseTranscript (doc : List Cue) : List TranscriptLine :=
  doc.map fun cue =>
    { text := decodeHTML cue.content
      duration := (parseFloat cue.dur).map fun q => q * 1000
      offset := (parseFloat cue.start).map fun q => q * 1000 }

/-- Modelled from the spec: the constant `WATCH_URL` is imported by
src/src/services/youtube.ts from src/constants.ts but is absent from the
copy of that file under src/; the spec (§4.1) says the resolver fetches
the video's watch page for the derived identifier. -/
def WATCH_URL : String := "https://www.youtube.com/watch?v="

/-- Modelled from the spec: the constant `INNERTUBE_API_URL` is imported
by src/src/services/youtube.ts but absent from src/; the spec (§4.2) says
the acquirer issues one POST to the internal data endpoint with the
extracted credential as a query parameter. -/
def INNERTUBE_API_URL : String := "https://www.youtube.com/youtubei/v1/player?key="

/-- The suffix of `s` right after the first occurrence of `pat`, or `none`
when `pat` does not occur in `s`. -/
def findAfter (pat : List Char) : List Char → Option (List Char)
  | [] => none
  | c :: cs =>
    if pat.isPrefixOf (c :: cs) then some ((c :: cs).drop pat.length)
    else findAfter pat cs

/-- Modelled from the spec: the constant `INNERTUBE_API_KEY_REGEX` is
imported by src/src/services/youtube.ts but absent from src/; the spec
(§4.1) says the resolver searches the fetched markup for an embedded
credential token behind one pattern match, failing when the pattern is
absent.  The model extracts the text between the fixed marker
`"INNERTUBE_API_KEY":"` and the following quote. -/
def extractInnertubeApiKey (html : String) : Option String :=
  let marker := "\"INNERTUBE_API_KEY\":\"".data
  (findAfter marker html.data).map fun rest =>
    String.mk (rest.takeWhile fun c => c ≠ Char.ofNat 34)

/-- The environment supplying the response of each network request the
pipeline can issue: the watch-page HTML, the (already JSON-parsed)
InnerTube metadata response, and the (already XML-parsed) caption
document. -/
structure Env where
  videoHtml : String
  innertubeData : InnertubeData
  transcriptDoc : List Cue
deriving Repr

/-- The aggregate result of `fetchTranscript`
(src/src/types.ts `TranscriptResponse`). -/
structure TranscriptResponse where
  url : String
  videoId : String
  title : String
  author : String
  channelUrl : String
  lines : List TranscriptLine
deriving DecidableEq, Repr

/-- JS `x || 'Unknown'` on an optional string field (absent and empty
strings are falsy). -/
def orUnknown (x : Option String) : String :=
  match x with
  | none => "Unknown"
  | some t => if t = "" then "Unknown" else t

/-- `fetchTranscript` (src/src/services/youtube.ts lines 259-287),
returning the outcome together with the ordered list of URLs requested
over the network (`request` at lines 274, 291, 304): an empty list means
no network request was issued. -/
def fetchTranscript (env : Env) (url : String) (langCode : String) :
    Except PipelineError TranscriptResponse × List String :=
  match extractVideoId url with
  | none => (.error .invalidUrl, [])
  | some videoId =>
    let log1 := [WATCH_URL ++ videoId]
    match extractInnertubeApiKey env.videoHtml with
    | none => (.error .credentialExtractionFailed, log1)
    | some apiKey =>
      let log2 := log1 ++ [INNERTUBE_API_URL ++ apiKey]
      match extractCaptionsJson env.innertubeData with
      | .error e => (.error e, log2)
      | .ok captionsJson =>
        match findCaptionTrack captionsJson langCode with
        | .error e => (.error e, log2)
        | .ok track =>
          let log3 := log2 ++ [track.baseUrl]
          let vd := env.innertubeData.videoDetails
          (.ok
            { url := url
              videoId := videoId
              title := decodeHTML (orUnknown vd.title)
              author := decodeHTML (orUnknown vd.author)
              channelUrl :=
                match vd.channelId with
                | none => ""
                | some cid =>
                  if cid = "" then "" else "https://www.youtube.com/channel/" ++ cid
              lines := parseTranscript env.transcriptDoc }, log3)

/-- The five thumbnail quality keys (src/src/types.ts `ThumbnailQuality`). -/
inductive ThumbQuality where
  | default
  | medium
  | high
  | standard
  | maxres
deriving DecidableEq, Repr

/-- The `qualities` record built by `getThumbnailUrl`
(src/src/services/youtube.ts lines 231-237). -/
def thumbnailTemplate (videoId : String) : ThumbQuality → String
  | .default => "https://img.youtube.com/vi/" ++ videoId ++ "/default.jpg"
  | .medium => "https://img.youtube.com/vi/" ++ videoId ++ "/mqdefault.jpg"
  | .high => "https://img.youtube.com/vi/" ++ videoId ++ "/hqdefault.jpg"
  | .standard => "https://img.youtube.com/vi/" ++ videoId ++ "/sddefault.jpg"
  | .maxres => "https://img.youtube.com/vi/" ++ videoId ++ "/maxresdefault.jpg"

/-- `getThumbnailUrl` (src/src/services/youtube.ts lines 227-239); the
optional `quality` argument defaults to `maxres`, modelled by `none` for
"no argument given". -/
def getThumbnailUrl (videoId : String) (quality : Option ThumbQuality) : String :=
  thumbnailTemplate videoId (quality.getD .maxres)

/-- The fixed URL suffix of each thumbnail quality. -/
def thumbSuffix : ThumbQuality → String
  | .default => "/default.jpg"
  | .medium => "/mqdefault.jpg"
  | .high => "/hqdefault.jpg"
  | .standard => "/sddefault.jpg"
  | .maxres => "/maxresdefault.jpg"

deriving instance DecidableEq for Except

/-- A watch-page body carrying the embedded credential token `k`. -/
def keyHtml : String := "xx\"INNERTUBE_API_KEY\":\"k\"yy"

/-- A canonical watch URL whose video identifier is `dQw4w9WgXcQ`. -/
def urlC : String := "https://www.youtube.com/watch?v=dQw4w9WgXcQ"

/-- A `videoDetails` object with every field absent. -/
def noDetails : VideoDetails := ⟨none, none, none⟩

theorem occursIn_append_self (pat r : List Char) : occursIn pat (pat ++ r) = true := by
  cases pat with
  | nil => cases r <;> simp [occursIn, List.isPrefixOf]
  | cons p ps =>
    simp only [List.cons_append, occursIn]
    have h : (p :: ps).isPrefixOf (p :: (ps ++ r)) = true := by
      simp [List.isPrefixOf_iff_prefix]
    simp [h]

theorem occursIn_mid (pat l r : List Char) : occursIn pat (l ++ (pat ++ r)) = true := by
  induction l with
  | nil => simpa using occursIn_append_self pat r
  | cons c cs ih => simp [occursIn, ih]

theorem find_const_true (tracks : List CaptionTrack) :
    tracks.find? (fun _ => true) = (if tracks.length > 0 then tracks.head? else none) := by
  cases tracks <;> simp [List.find?]

theorem matchShape_error_kind (o : Option CaptionTrack) (e : PipelineError)
    (h : (match o with
          | none => (Except.error PipelineError.noMatchingTrack : Except PipelineError CaptionTrack)
          | some t => Except.ok t) = .error e) : e = .noMatchingTrack := by
  cases o <;> simp_all

theorem findCaptionTrack_error_kind (cj : CaptionsRenderer) (lang : String) (e : PipelineError)
    (h : findCaptionTrack cj lang = .error e) : e = .noMatchingTrack := by
  unfold findCaptionTrack at h
  exact matchShape_error_kind _ e h

theorem extractCaptionsJson_error_kinds (d : InnertubeData) (e : PipelineError)
    (h : extractCaptionsJson d = .error e) :
    e = .ageRestricted ∨ e = .videoUnavailable ∨ e = .transcriptsDisabled := by
  unfold extractCaptionsJson at h
  repeat' split at h
  all_goals simp_all

/-- C1: caption-track selection follows the fixed four-tier preference
order with first match winning — the source's chain of conditional
fallbacks (`_findCaptionTrack`) equals first-match-wins selection over the
spec's ordered rule list, for every caption container and requested
language; in particular, on a list holding an `en` asr track and an `en`
manual track with requested language `en`, the manual track is selected,
and the end-to-end pipeline then fetches exactly that track's URL. -/
theorem captionTrack_selection_follows_preference_order :
    (∀ (cj : CaptionsRenderer) (langCode : String),
      findCaptionTrack cj langCode =
        match selectByRules (preferenceRules langCode) (cj.captionTracks.getD []) with
        | some t => .ok t
        | none => .error .noMatchingTrack) ∧
    findCaptionTrack ⟨some [⟨"en", some "asr", "uAsr"⟩, ⟨"en", some "manual", "uManual"⟩]⟩ "en" =
      .ok ⟨"en", some "manual", "uManual"⟩ ∧
    (fetchTranscript
        ⟨keyHtml,
          ⟨some "OK",
            some ⟨some [⟨"en", some "asr", "uAsr"⟩, ⟨"en", some "manual", "uManual"⟩]⟩,
            noDetails⟩, []⟩ urlC "en").2 =
      [WATCH_URL ++ "dQw4w9WgXcQ", INNERTUBE_API_URL ++ "k", "uManual"] := by
  refine ⟨?_, by decide, by decide⟩
  intro cj lang
  simp only [findCaptionTrack, selectByRules, preferenceRules]
  cases h1 : (cj.captionTracks.getD []).find? (fun t => t.languageCode == lang && !(t.kind == some "asr")) with
  | some t => simp
  | none =>
    simp only []
    cases h2 : (cj.captionTracks.getD []).find? (fun t => t.languageCode == lang) with
    | some t => simp
    | none =>
      cases h3 : (cj.captionTracks.getD []).find? (fun t => t.languageCode.startsWith lang) with
      | some t => simp
      | none =>
        rw [find_const_true]
        cases h4 : (if (cj.captionTracks.getD []).length > 0 then (cj.captionTracks.getD []).head? else none) <;> simp

/-- C2 counterexample: a playable metadata response carrying a present but
EMPTY caption-track list fails with the no-matching-track error
(`No suitable transcript found`), not with `TranscriptsDisabled` — the
claim that an empty list yields `TranscriptsDisabled` is false on the
code, because an empty JS array is truthy and passes the
`!captions.captionTracks` check. -/
theorem emptyTrackList_noMatchingTrack_not_transcriptsDisabled :
    (fetchTranscript ⟨keyHtml, ⟨some "OK", some ⟨some []⟩, noDetails⟩, []⟩ urlC "en").1 =
      .error .noMatchingTrack ∧
    PipelineError.noMatchingTrack ≠ PipelineError.transcriptsDisabled := by
  constructor <;> decide

/-- C2 amended: a missing caption container or a missing `captionTracks`
field fails with `TranscriptsDisabled`; a present but empty caption-track
list instead reaches track selection and fails there with the
no-matching-track error. -/
theorem transcriptsDisabled_on_missing_captions :
    (∀ d : InnertubeData,
       d.playabilityStatus ≠ some "LOGIN_REQUIRED" → d.playabilityStatus ≠ some "ERROR" →
       d.captions = none → extractCaptionsJson d = .error .transcriptsDisabled) ∧
    (∀ (d : InnertubeData) (c : CaptionsRenderer),
       d.playabilityStatus ≠ some "LOGIN_REQUIRED" → d.playabilityStatus ≠ some "ERROR" →
       d.captions = some c → c.captionTracks = none →
       extractCaptionsJson d = .error .transcriptsDisabled) ∧
    (∀ langCode : String, findCaptionTrack ⟨some []⟩ langCode = .error .noMatchingTrack) := by
  refine ⟨?_, ?_, ?_⟩
  · intro d h1 h2 hc
    unfold extractCaptionsJson
    rw [if_neg h1, if_neg h2, hc]
  · intro d c h1 h2 hc hct
    unfold extractCaptionsJson
    rw [if_neg h1, if_neg h2, hc]
    dsimp only
    rw [hct]
  · intro lang
    rfl

/-- C2 amended, witness: a playable response with the captions container
absent fails with `TranscriptsDisabled`. -/
theorem transcriptsDisabled_on_missing_captions_witness :
    extractCaptionsJson ⟨some "OK", none, noDetails⟩ = .error .transcriptsDisabled :=
  transcriptsDisabled_on_missing_captions.1 _ (by decide) (by decide) rfl

/-- C3 counterexample: the pipeline can return SUCCESSFULLY with an empty
`lines` array — a playable video with a caption track whose fetched
caption document contains zero cue nodes produces `Except.ok` with
`lines = []`, so "lines is non-empty on success" is false on the code. -/
theorem success_with_empty_lines :
    ((fetchTranscript ⟨keyHtml,
        ⟨some "OK", some ⟨some [⟨"en", none, "https://cap.example/doc"⟩]⟩,
          ⟨some "T", some "A", some "C"⟩⟩,
        []⟩ urlC "en").1.toOption.map fun r => r.lines) = some [] := by
  decide

/-- C3 amended: on success `lines` is exactly the parse of the fetched
caption document, with no emptiness guarantee — a zero-cue document gives
a successful result with an empty `lines` array (missing caption
containers are still terminal errors, per the C2 theorems). -/
theorem lines_eq_parse_of_success (env : Env) (url langCode : String)
    (r : TranscriptResponse) (log : List String)
    (h : fetchTranscript env url langCode = (.ok r, log)) :
    r.lines = parseTranscript env.transcriptDoc := by
  unfold fetchTranscript at h
  cases hv : extractVideoId url with
  | none => rw [hv] at h; simp_all
  | some vid =>
    rw [hv] at h
    cases hk : extractInnertubeApiKey env.videoHtml with
    | none => rw [hk] at h; simp_all
    | some key =>
      rw [hk] at h
      cases hc : extractCaptionsJson env.innertubeData with
      | error e => rw [hc] at h; simp_all
      | ok cj =>
        rw [hc] at h
        cases ht : findCaptionTrack cj langCode with
        | error e => simp_all
        | ok track =>
          simp only [ht] at h
          simp at h
          obtain ⟨h1, h2⟩ := h
          rw [← h1]

/-- C3 amended, witness: the zero-cue success run, with its `lines` equal
to the parse of the empty caption document. -/
theorem lines_eq_parse_of_success_witness :
    (⟨urlC, "dQw4w9WgXcQ", "T", "A", "https://www.youtube.com/channel/C", []⟩ :
        TranscriptResponse).lines =
      parseTranscript (⟨keyHtml,
        ⟨some "OK", some ⟨some [⟨"en", none, "https://cap.example/doc"⟩]⟩,
          ⟨some "T", some "A", some "C"⟩⟩, []⟩ : Env).transcriptDoc :=
  lines_eq_parse_of_success _ urlC "en" _
    [WATCH_URL ++ "dQw4w9WgXcQ", INNERTUBE_API_URL ++ "k", "https://cap.example/doc"]
    (by decide)

/-- C4 counterexample: `decodeHTML` DOES double-decode a doubly-encoded
entity whose inner replacement runs after the `&amp;` replacement —
`&amp;quot;` (the two-level encoding of the double quote) decodes to `"`
in one call, not to the one-level `&quot;`. -/
theorem decodeHTML_double_decode_quot :
    decodeHTML "&amp;quot;" = "\"" ∧ decodeHTML "&amp;quot;" ≠ "&quot;" := by
  constructor <;> decide

/-- C4 amended: each of the six entities decodes to its single-character
form exactly once, decoding is the identity on entity-free text, and
`&amp;amp;` and `&amp;#39;` decode one level per call; but the four
doubly-encoded entities `&amp;quot; &amp;apos; &amp;lt; &amp;gt;` decode
TWO levels in a single call, because their replacements run after the
`&amp;` replacement in the source's fixed order. -/
theorem decodeHTML_entity_behaviour :
    (∀ s : String, entityFree s → decodeHTML s = s) ∧
    (decodeHTML "&amp;" = "&" ∧ decodeHTML "&lt;" = "<" ∧ decodeHTML "&gt;" = ">" ∧
      decodeHTML "&quot;" = "\"" ∧ decodeHTML "&#39;" = aposStr ∧ decodeHTML "&apos;" = aposStr) ∧
    (decodeHTML "&amp;amp;" = "&amp;" ∧ decodeHTML "&amp;#39;" = "&#39;") ∧
    (decodeHTML "&amp;quot;" = "\"" ∧ decodeHTML "&amp;apos;" = aposStr ∧
      decodeHTML "&amp;lt;" = "<" ∧ decodeHTML "&amp;gt;" = ">") := by
  refine ⟨decodeHTML_of_entityFree, ?_, ?_, ?_⟩ <;> refine ⟨?_, ?_⟩ <;> try constructor
  all_goals decide

/-- C4 amended, witness: decoding is the identity on an entity-free
string. -/
theorem decodeHTML_entity_behaviour_witness : decodeHTML "plain text" = "plain text" :=
  decodeHTML_entity_behaviour.1 "plain text" (by decide)

/-- C5 counterexample: a well-formed two-cue document whose cue start
times are out of order parses to a transcript whose offsets DECREASE —
the parser does not re-sort, so the non-decreasing-offset claim is false
for arbitrary well-formed documents. -/
theorem parseTranscript_offsets_can_decrease :
    ((parseTranscript [⟨"2", "1", "a"⟩, ⟨"1", "1", "b"⟩]).map fun l => l.offset) =
      [some 2000, some 1000] ∧ ¬ ((2000 : ℚ) ≤ 1000) := by
  constructor
  · have h2 : parseFloat "2" = some (mkRat 2 1) := by decide
    have h1 : parseFloat "1" = some (mkRat 1 1) := by decide
    simp [parseTranscript, h1, h2, Rat.mkRat_eq_div]
    norm_num
  · norm_num

/-- C5 amended: output order is document cue order, so the produced
offsets are the cue start values times 1000 in document order, and they
are non-decreasing precisely when the document's cue start values are
non-decreasing (the parser preserves, but does not create, order). -/
theorem parseTranscript_offsets_mono_of_sorted_starts (cues : List Cue) (qs : List ℚ)
    (hparse : cues.map (fun c => parseFloat c.start) = qs.map some)
    (hmono : qs.Chain' (· ≤ ·)) :
    ((parseTranscript cues).map fun l => l.offset) = (qs.map fun q => some (q * 1000)) ∧
    (qs.map fun q => q * 1000).Chain' (· ≤ ·) := by
  constructor
  · have : ((parseTranscript cues).map fun l => l.offset) =
        (cues.map fun c => parseFloat c.start).map (Option.map fun q => q * 1000) := by
      simp [parseTranscript, Function.comp]
    rw [this, hparse]
    simp [Function.comp]
  · exact List.chain'_map_of_chain' _ (fun a b hab =>
      mul_le_mul_of_nonneg_right hab (by norm_num)) hmono

/-- C5 amended, witness: a document with sorted cue starts `1, 2` yields
the sorted offsets `1000, 2000`. -/
theorem parseTranscript_offsets_mono_witness :
    ((parseTranscript [⟨"1", "1", "a"⟩, ⟨"2", "1", "b"⟩]).map fun l => l.offset) =
      ([mkRat 1 1, mkRat 2 1].map fun q => some (q * 1000)) ∧
    ([mkRat 1 1, mkRat 2 1].map fun q => q * 1000).Chain' (· ≤ ·) :=
  parseTranscript_offsets_mono_of_sorted_starts _ _ (by decide)
    (List.Chain.cons (by decide) List.Chain.nil)

/-- C6: for every input URL on which the video-identifier regex does not
match, `fetchTranscript` fails with the invalid-URL error — and with no
other error kind — and the request log is empty, i.e. no network request
was issued. -/
theorem invalidUrl_before_any_request (env : Env) (url langCode : String)
    (h : extractVideoId url = none) :
    fetchTranscript env url langCode = (.error .invalidUrl, []) := by
  unfold fetchTranscript
  rw [h]

/-- C6, witness: `https://example.com` carries no 11-character token, so
the pipeline fails with the invalid-URL error and issues no request. -/
theorem invalidUrl_before_any_request_witness :
    fetchTranscript ⟨"", ⟨none, none, noDetails⟩, []⟩ "https://example.com" "en" =
      (.error .invalidUrl, []) :=
  invalidUrl_before_any_request _ _ _ (by decide)

/-- C7: whenever the pipeline reaches the metadata response, a
`LOGIN_REQUIRED` playability status fails with the age-restricted error
and an `ERROR` status with the video-unavailable error; in both cases the
request log holds exactly the watch-page and metadata requests — no
caption-document fetch — and the conclusion holds for EVERY captions
field, so the playability status is inspected before the caption-track
list is examined and before any track selection. -/
theorem playability_checked_first (env : Env) (url langCode vid key : String)
    (hvid : extractVideoId url = some vid)
    (hkey : extractInnertubeApiKey env.videoHtml = some key) :
    (env.innertubeData.playabilityStatus = some "LOGIN_REQUIRED" →
      fetchTranscript env url langCode =
        (.error .ageRestricted, [WATCH_URL ++ vid, INNERTUBE_API_URL ++ key])) ∧
    (env.innertubeData.playabilityStatus = some "ERROR" →
      fetchTranscript env url langCode =
        (.error .videoUnavailable, [WATCH_URL ++ vid, INNERTUBE_API_URL ++ key])) := by
  constructor
  · intro hs
    unfold fetchTranscript
    rw [hvid, hkey]
    have hc : extractCaptionsJson env.innertubeData = .error .ageRestricted := by
      unfold extractCaptionsJson
      rw [hs]
      simp
    rw [hc]
    simp
  · intro hs
    unfold fetchTranscript
    rw [hvid, hkey]
    have hc : extractCaptionsJson env.innertubeData = .error .videoUnavailable := by
      unfold extractCaptionsJson
      rw [hs]
      simp
    rw [hc]
    simp

/-- C7, witness: a `LOGIN_REQUIRED` response (with no captions field at
all) fails with the age-restricted error after exactly the two
pre-caption requests. -/
theorem playability_checked_first_witness :
    fetchTranscript ⟨keyHtml, ⟨some "LOGIN_REQUIRED", none, noDetails⟩, []⟩ urlC "en" =
      (.error .ageRestricted, [WATCH_URL ++ "dQw4w9WgXcQ", INNERTUBE_API_URL ++ "k"]) :=
  (playability_checked_first _ _ _ _ _ (by decide) (by decide)).1 rfl

/-- C8 counterexample: the cue start attribute `0.0625` (exactly
representable as an IEEE double, so the rational model agrees with the JS
value) produces the offset `62.5` — not an integer, and not the `63` that
rounding half away from zero would give — so the claim that offsets are
whole milliseconds is false on the code. -/
theorem parseTranscript_offset_not_integral :
    ((parseTranscript [⟨"0.0625", "0.5", "x"⟩]).map fun l => l.offset) = [some (125/2 : ℚ)] ∧
    ((125 : ℚ)/2).den ≠ 1 ∧ (125/2 : ℚ) ≠ 63 := by
  refine ⟨?_, by norm_num [Rat.den_div_eq_of_coprime], by norm_num⟩
  have h : parseFloat "0.0625" = some (mkRat 1 16) := by decide
  simp [parseTranscript, h, Rat.mkRat_eq_div]
  norm_num

/-- C8 amended: every produced line's offset and duration are exactly the
`parseFloat` of the cue's start and duration attributes multiplied by
1000, with no rounding — the values are exact rationals and need not be
integers (the C8 counterexample exhibits the non-integer offset 62.5). -/
theorem parseTranscript_times_1000_no_rounding (cues : List Cue) (i : Nat) :
    ((parseTranscript cues)[i]?.map fun l => l.offset) =
      (cues[i]?.map fun c => (parseFloat c.start).map fun q => q * 1000) ∧
    ((parseTranscript cues)[i]?.map fun l => l.duration) =
      (cues[i]?.map fun c => (parseFloat c.dur).map fun q => q * 1000) := by
  constructor <;>
    (simp only [parseTranscript, List.getElem?_map, Option.map_map]; cases cues[i]? <;> simp)

/-- C9: `getThumbnailUrl` is a pure function of `videoId` and `quality`:
omitting the quality gives the `maxres` URL, each quality gives the fixed
template prefix, the video identifier, and that quality's fixed suffix,
the identifier occurs in every produced URL, and in particular the URL
for `abc12345678` at `high` quality contains both `abc12345678` and
`hqdefault`. -/
theorem getThumbnailUrl_template :
    (∀ videoId, getThumbnailUrl videoId none = getThumbnailUrl videoId (some .maxres)) ∧
    (∀ videoId q, getThumbnailUrl videoId (some q) =
      "https://img.youtube.com/vi/" ++ videoId ++ thumbSuffix q) ∧
    (∀ videoId q, occursIn videoId.data (getThumbnailUrl videoId (some q)).data = true) ∧
    (occursIn "abc12345678".data (getThumbnailUrl "abc12345678" (some .high)).data = true ∧
      occursIn "hqdefault".data (getThumbnailUrl "abc12345678" (some .high)).data = true) := by
  have htmpl : ∀ videoId q, getThumbnailUrl videoId (some q) =
      "https://img.youtube.com/vi/" ++ videoId ++ thumbSuffix q := by
    intro videoId q
    cases q <;> rfl
  refine ⟨fun _ => rfl, htmpl, ?_, by decide, by decide⟩
  intro videoId q
  rw [htmpl]
  have hdata : ("https://img.youtube.com/vi/" ++ videoId ++ thumbSuffix q).data =
      "https://img.youtube.com/vi/".data ++ (videoId.data ++ (thumbSuffix q).data) :=
    List.append_assoc _ _ _
  rw [hdata]
  exact occursIn_mid _ _ _

set_option maxRecDepth 8192 in
/-- C10: `fetchTranscript` does not require a YouTube URL —
`https://example.com/abcdefghijk` fails `isYouTubeUrl`, yet the
identifier `abcdefghijk` is extracted from it and, for every environment,
the pipeline issues the watch-page request (the log's first entry) and
never fails with the invalid-URL error. -/
theorem fetchTranscript_accepts_non_youtube_url :
    isYouTubeUrl "https://example.com/abcdefghijk" = false ∧
    extractVideoId "https://example.com/abcdefghijk" = some "abcdefghijk" ∧
    ∀ (env : Env) (langCode : String),
      (fetchTranscript env "https://example.com/abcdefghijk" langCode).2.head? =
        some (WATCH_URL ++ "abcdefghijk") ∧
      (fetchTranscript env "https://example.com/abcdefghijk" langCode).1 ≠
        .error .invalidUrl := by
  refine ⟨by decide, by decide, ?_⟩
  intro env langCode
  have h : extractVideoId "https://example.com/abcdefghijk" = some "abcdefghijk" := by decide
  unfold fetchTranscript
  rw [h]
  cases hk : extractInnertubeApiKey env.videoHtml with
  | none => simp
  | some key =>
    cases hc : extractCaptionsJson env.innertubeData with
    | error e =>
      have he := extractCaptionsJson_error_kinds env.innertubeData e hc
      have : e ≠ .invalidUrl := by rcases he with h1 | h1 | h1 <;> simp [h1]
      simp [this]
    | ok cj =>
      dsimp only
      cases ht : findCaptionTrack cj langCode with
      | error e =>
        have he := findCaptionTrack_error_kind cj langCode e ht
        simp [he]
      | ok track => simp
